import Mathlib

/-!
Shallow embedding of the fantasy-soccer server core (`src/server.js`) and of
the fixture-poller / scoring design (`src/LIVE_SCORING_PROMPT_EVALUATION.md`),
with theorems settling the specification claims about the upstream gateway,
the response cache, the cache key, the poller state machine, team-defense
scoring, and the player-pool refresh.  Definitions come first, theorems
follow.
-/

namespace FantasySoccer

/-! ## Upstream Gateway (server.js lines 83-102)

`scheduleApiFootballRequest(label, fn)` chains the job onto the module-level
promise `apiFootballQueue` via `.then`.  The chained callback reads the clock,
waits until `apiFootballNextAllowedAt`, records the dispatch time `start`,
sets `apiFootballNextAllowedAt = start + API_FOOTBALL_MIN_INTERVAL_MS`, and
only then runs `fn()`.  JavaScript promise semantics: once a chained promise
rejects, a later `.then(cb)` on it never runs `cb` and propagates the
rejection, so the chain stays poisoned.  We model a back-to-back sequence of
submitted jobs as a list processed in submission order with an explicit clock,
the next-allowed timestamp, and the poisoned flag of the chain. -/

def API_FOOTBALL_MIN_INTERVAL_MS : Nat := 6500

def API_FOOTBALL_SQUADS_TTL_MS : Nat := 12 * 60 * 60 * 1000

/-- One job submitted to the gateway queue: `delay` is the time between the
previous chain step settling and this callback getting its turn, `dur` is how
long the network function `fn` runs once dispatched, `ok` is whether `fn`
fulfills (`true`) or rejects (`false`). -/
structure GwJob where
  delay : Nat
  dur : Nat
  ok : Bool
deriving DecidableEq

/-- Observable outcome of one submitted job: either its `fn` was dispatched at
clock time `start` (with `fn`'s own success flag), or the callback never ran
because the promise chain was already rejected. -/
inductive GwOutcome where
  | dispatched (start : Nat) (ok : Bool)
  | skipped
deriving DecidableEq

/-- Chain-processing of the queued jobs, mirroring
`scheduleApiFootballRequest`.  State: `now` (clock), `na`
(`apiFootballNextAllowedAt`), `poisoned` (the stored `apiFootballQueue` is a
rejected promise).  For a live chain the callback computes
`waitMs = max 0 (na - now)`, sleeps, reads `start = now + waitMs`, reserves
`na := start + API_FOOTBALL_MIN_INTERVAL_MS`, then runs `fn`; a rejecting `fn`
poisons the chain for every later `.then`.  Each trace entry records the
job's outcome and the value of `apiFootballNextAllowedAt` after the step. -/
def apiFootballQueueRun : Nat → Nat → Bool → List GwJob → List (GwOutcome × Nat)
  | _, _, _, [] => []
  | now, na, true, j :: rest =>
      (.skipped, na) :: apiFootballQueueRun (now + j.delay) na true rest
  | now, na, false, j :: rest =>
      let t := now + j.delay
      let waitMs := na - t
      let start := t + waitMs
      (.dispatched start j.ok, start + API_FOOTBALL_MIN_INTERVAL_MS) ::
        apiFootballQueueRun (start + j.dur) (start + API_FOOTBALL_MIN_INTERVAL_MS) (!j.ok) rest

/-- The dispatch timestamps appearing in a gateway trace, in order. -/
def dispatchTimes (tr : List (GwOutcome × Nat)) : List Nat :=
  tr.filterMap fun e =>
    match e.1 with
    | .dispatched s _ => some s
    | .skipped => none

/-- A trace entry that dispatched at time `s` records
`s + API_FOOTBALL_MIN_INTERVAL_MS` as the next-allowed timestamp after the
step, whether or not the network function succeeded. -/
def reservesSlot (e : GwOutcome × Nat) : Bool :=
  match e.1 with
  | .dispatched s _ => e.2 == s + API_FOOTBALL_MIN_INTERVAL_MS
  | .skipped => true

/-! ## Provider error classification (server.js lines 126-147 and 163-245)

`apiFootball` awaits the axios call: axios fulfills on 2xx with
`response.data`; it rejects with `e.response` set on a non-2xx HTTP status,
and rejects without `e.response` on a transport failure.  The `errors` field
embedded in the provider body is a JavaScript value that can be absent/falsy,
an array, a plain object, or any other value; `hasUpstreamErrors` probes it
exactly as the source does. -/

/-- The provider body's `errors` field as a JavaScript value. -/
inductive JsErrors where
  | absent
  | arr (n : Nat)
  | obj (n : Nat)
  | other (truthy : Bool)
deriving DecidableEq

/-- Parsed provider response body: the embedded `errors` field plus the rest
of the payload (abstracted). -/
structure ApiBody where
  errors : JsErrors
  payload : Nat
deriving DecidableEq

/-- Mirror of `hasUpstreamErrors(data)`: falsy `errors` → false; an array →
`length > 0`; an object → `Object.keys(...).length > 0`; anything else →
`Boolean(errs)`. -/
def hasUpstreamErrors : JsErrors → Bool
  | .absent => false
  | .arr n => decide (n > 0)
  | .obj n => decide (n > 0)
  | .other t => t

/-- Mirror of `class ApiFootballError`, with the fields the claims are about
(`upstreamBody` is carried in the source as well but adds nothing here). -/
structure ApiFootballError where
  status : Nat
  endpoint : String
  params : List (String × String)
  upstreamStatus : Option Nat
  upstreamErrors : Option JsErrors
  retryAfterSeconds : Option Nat
deriving DecidableEq

/-- A failure as seen by a caller of `apiFootball`: either the structured
`ApiFootballError`, or a raw rethrown error (the final `throw e` when the
axios error carries no `e.response`). -/
inductive RaisedError where
  | api (e : ApiFootballError)
  | raw (msg : String)
deriving DecidableEq

def RaisedError.isApiFootballError : RaisedError → Bool
  | .api _ => true
  | .raw _ => false

/-- Outcome of the axios request made for the call. -/
inductive HttpResult where
  | success (body : ApiBody)
  | httpFailure (status : Nat) (body : ApiBody)
  | transportFailure (msg : String)
deriving DecidableEq

/-- Mirror of the `apiFootball` response handling (identical in the squads
branch, lines 179-207, and the general branch, lines 217-243): a fulfilled
response whose body has upstream errors throws status 429 with
`retryAfterSeconds = 60`; a rejected response with `e.response` throws
status 429/`retryAfterSeconds = 60` when the HTTP status is 429 and
status 502 with no `retryAfterSeconds` otherwise; a rejection without
`e.response` is rethrown raw. -/
def apiFootballResult (endpoint : String) (params : List (String × String)) :
    HttpResult → Except RaisedError ApiBody
  | .success body =>
      if hasUpstreamErrors body.errors then
        .error (.api { status := 429, endpoint := endpoint, params := params,
                       upstreamStatus := some 200, upstreamErrors := some body.errors,
                       retryAfterSeconds := some 60 })
      else .ok body
  | .httpFailure s body =>
      .error (.api { status := if s = 429 then 429 else 502,
                     endpoint := endpoint, params := params,
                     upstreamStatus := some s, upstreamErrors := some body.errors,
                     retryAfterSeconds := if s = 429 then some 60 else none })
  | .transportFailure msg => .error (.raw msg)

/-! ## Cache key serialization (server.js lines 104-108)

`stableStringify(obj)` sorts `Object.keys(obj)` and joins
`key=encodeURIComponent(String(obj[key]))` with `&`.  A parameter object is
modelled as an association list with string keys and string values, one entry
per key. -/

/-- Uppercase hexadecimal digit, as `encodeURIComponent` produces. -/
def hexDigit (n : Nat) : Char :=
  if n < 10 then Char.ofNat (48 + n) else Char.ofNat (55 + n)

/-- UTF-8 bytes of a code point, as `encodeURIComponent` percent-encodes. -/
def utf8Bytes (n : Nat) : List Nat :=
  if n < 128 then [n]
  else if n < 2048 then [192 + n / 64, 128 + n % 64]
  else if n < 65536 then [224 + n / 4096, 128 + (n / 64) % 64, 128 + n % 64]
  else [240 + n / 262144, 128 + (n / 4096) % 64, 128 + (n / 64) % 64, 128 + n % 64]

/-- Characters `encodeURIComponent` leaves unescaped: alphanumerics and
`- _ . ! ~ * ( )` plus the apostrophe (code point 39). -/
def isUriUnreserved (c : Char) : Bool :=
  c.isAlphanum || c = Char.ofNat 45 || c = Char.ofNat 95 || c = Char.ofNat 46 ||
    c = Char.ofNat 33 || c = Char.ofNat 126 || c = Char.ofNat 42 || c = Char.ofNat 39 ||
    c = Char.ofNat 40 || c = Char.ofNat 41

/-- Model of the JavaScript builtin `encodeURIComponent`. -/
def encodeURIComponent (s : String) : String :=
  String.join <| s.toList.map fun c =>
    if isUriUnreserved c then String.singleton c
    else String.join ((utf8Bytes c.toNat).map fun b =>
      String.mk [Char.ofNat 37, hexDigit (b / 16), hexDigit (b % 16)])

/-- Value of `obj[k]` for the association-list model of a parameter object. -/
def jsGet (l : List (String × String)) (k : String) : String :=
  ((l.find? fun e => e.1 == k).map Prod.snd).getD "undefined"

/-- Mirror of `stableStringify(obj)` for an object-valued argument: sort the
keys, map each key to `k=encodeURIComponent(String(obj[k]))`, join with
`&`. -/
def stableStringify (l : List (String × String)) : String :=
  String.intercalate "&"
    (((l.map Prod.fst).insertionSort fun a b => a ≤ b).map
      fun k => k ++ "=" ++ encodeURIComponent (jsGet l k))

/-! ## Response cache (server.js lines 110-124 and the squads branch 163-209)

`apiFootballCache` is a `Map` from key to `{expiresAt, data}`; reads delete
an expired entry lazily, writes set `expiresAt = now + ttl`.  The map is
modelled as an insertion-ordered association list with at most one entry per
key. -/

/-- The in-memory cache: key, `expiresAt`, cached body, in insertion order. -/
abbrev Cache := List (String × Nat × ApiBody)

/-- `Map.delete`: drop the entry with the given key. -/
def cacheDelete (c : Cache) (k : String) : Cache :=
  c.filter fun e => !(e.1 == k)

/-- `Map.set`: replace the entry in place when present, append otherwise. -/
def cacheSet (c : Cache) (k : String) (expiresAt : Nat) (d : ApiBody) : Cache :=
  if c.any (fun e => e.1 == k) then
    c.map fun e => if e.1 == k then (k, expiresAt, d) else e
  else c ++ [(k, expiresAt, d)]

/-- Mirror of `getApiFootballCached(key)`: no entry → miss; an entry with
`now >= expiresAt` is deleted and reported as a miss; otherwise hit.  Returns
the read result and the cache state after the read. -/
def getApiFootballCached (now : Nat) (c : Cache) (key : String) :
    Option ApiBody × Cache :=
  match c.find? (fun e => e.1 == key) with
  | none => (none, c)
  | some (_, expiresAt, d) =>
      if now ≥ expiresAt then (none, cacheDelete c key) else (some d, c)

/-- Mirror of `setApiFootballCached(key, data, ttlMs)`. -/
def setApiFootballCached (now : Nat) (c : Cache) (key : String) (d : ApiBody)
    (ttlMs : Nat) : Cache :=
  cacheSet c key (now + ttlMs) d

/-- The cache key the squads branch builds:
`` `${endpoint}?${stableStringify(params)}` `` with
endpoint `/players/squads`. -/
def squadsCacheKey (params : List (String × String)) : String :=
  "/players/squads?" ++ stableStringify params

/-- Result of one `apiFootball('/players/squads', params)` call: the value
returned or error thrown, the cache state afterwards, and whether the call
reached the gateway (scheduled an upstream request). -/
structure SquadsCall where
  result : Except RaisedError ApiBody
  cache : Cache
  upstreamCalled : Bool

/-- Mirror of the squads branch of `apiFootball` (lines 163-209): consult the
cache; on a hit return the cached body with no upstream call; on a miss run
the request through the gateway, classify the outcome as `apiFootballResult`
does, cache the body on success with the 12-hour TTL, and leave the cache
unwritten on any error. -/
def apiFootballSquads (now : Nat) (c : Cache) (params : List (String × String))
    (http : HttpResult) : SquadsCall :=
  match getApiFootballCached now c (squadsCacheKey params) with
  | (some d, c2) => ⟨.ok d, c2, false⟩
  | (none, c2) =>
      match apiFootballResult "/players/squads" params http with
      | .ok data =>
          ⟨.ok data,
            setApiFootballCached now c2 (squadsCacheKey params) data API_FOOTBALL_SQUADS_TTL_MS,
            true⟩
      | .error e => ⟨.error e, c2, true⟩

/-! ## Fixture poller decision (LIVE_SCORING_PROMPT_EVALUATION.md §8)

`pollLiveFixtures` is described in the design document and the spec but not
implemented in the repository; the decision table is modelled from the
spec. -/

/-- Modelled from the spec: provider-reported fixture status codes used by
the `pollLiveFixtures` decision table (the function itself is described in
`LIVE_SCORING_PROMPT_EVALUATION.md` §8 but not implemented in the source). -/
inductive FixtureStatus where
  | ns
  | ht
  | firstHalf
  | secondHalf
  | et
  | pensLive
  | ft
  | aet
  | pen
deriving DecidableEq

/-- Modelled from the spec: the per-fixture state the poller reads — provider
status, elapsed minutes, and the stored `finalized` flag. -/
structure PolledFixture where
  status : FixtureStatus
  elapsed : Nat
  finalized : Bool
deriving DecidableEq

/-- What a poller tick does with one fixture. -/
inductive PollAction where
  | skip
  | process
  | processFinal
deriving DecidableEq

/-- Modelled from the spec: the elapsed-based filtering table of
`pollLiveFixtures` (missing from the source; described in
`LIVE_SCORING_PROMPT_EVALUATION.md` §8 and spec §4.3).  A finalized fixture
is skipped unconditionally; NS and HT are skipped; 1H processes when
`elapsed ≥ 1`; 2H processes when `elapsed ≥ 47`; ET and P process; FT, AET
and PEN process as final. -/
def pollDecision (f : PolledFixture) : PollAction :=
  if f.finalized then .skip
  else
    match f.status with
    | .ns => .skip
    | .ht => .skip
    | .firstHalf => if 1 ≤ f.elapsed then .process else .skip
    | .secondHalf => if 47 ≤ f.elapsed then .process else .skip
    | .et => .process
    | .pensLive => .process
    | .ft => .processFinal
    | .aet => .processFinal
    | .pen => .processFinal

/-- Modelled from the spec: one poller tick on one fixture — take the
decision and, when the fixture is processed as final, set `finalized = true`
(the poller may only set the flag, never unset it). -/
def pollTick (f : PolledFixture) : PollAction × PolledFixture :=
  let a := pollDecision f
  (a, { f with finalized := f.finalized || decide (a = .processFinal) })

/-! ## Team-defense scoring (LIVE_SCORING_PROMPT_EVALUATION.md §5, spec §4.4)

`computeFixturePoints` is described but not implemented in the repository;
its team-defense part is modelled from the spec. -/

/-- Modelled from the spec: the final-score facts of a fixture that
team-defense scoring reads — regulation-plus-extra-time goals for each side,
whether the match was decided on penalties, and which side won the
shootout. -/
structure FixtureOutcome where
  homeGoals : Nat
  awayGoals : Nat
  decidedOnPens : Bool
  homeWonPens : Bool
deriving DecidableEq

inductive Side where
  | home
  | away
deriving DecidableEq

/-- Goals a side scored in regulation plus extra time. -/
def goalsFor (m : FixtureOutcome) : Side → Nat
  | .home => m.homeGoals
  | .away => m.awayGoals

/-- Goals a side conceded in regulation plus extra time. -/
def goalsAgainst (m : FixtureOutcome) : Side → Nat
  | .home => m.awayGoals
  | .away => m.homeGoals

/-- The side that won a shootout, when one took place. -/
def pensWinner (m : FixtureOutcome) : Side :=
  if m.homeWonPens then .home else .away

/-- Modelled from the spec: whether a side won the fixture — ahead on the
regulation-plus-extra-time score, or level and winner of the shootout when
the match was decided on penalties. -/
def wonFixture (m : FixtureOutcome) (s : Side) : Bool :=
  if goalsFor m s > goalsAgainst m s then true
  else if goalsFor m s < goalsAgainst m s then false
  else m.decidedOnPens && decide (pensWinner m = s)

/-- One line of a fantasy-points breakdown. -/
structure BreakdownLine where
  points : Int
  reason : String
deriving DecidableEq

/-- Modelled from the spec: the team-defense part of `computeFixturePoints`
(described in `LIVE_SCORING_PROMPT_EVALUATION.md` §5 and spec §4.4, not
implemented in the source): win → `+1` "Win"; clean sheet → `+2`
"Clean Sheet", judged on the regulation-plus-extra-time goals conceded only,
so shootout goals never count against it; `redCards` red cards shown to the
side's players → one aggregated `-redCards` line. -/
def teamDefenseBreakdown (m : FixtureOutcome) (redCards : Nat) (s : Side) :
    List BreakdownLine :=
  (if wonFixture m s then [⟨1, "Win"⟩] else []) ++
    (if goalsAgainst m s = 0 then [⟨2, "Clean Sheet"⟩] else []) ++
      (if redCards > 0 then
        [⟨-(redCards : Int), toString redCards ++ " Red Card(s)"⟩]
      else [])

/-! ## Player-pool refresh (server.js lines 421-452) -/

/-- A stored player-pool entry (`id` as its string form, since the source
compares `String(p.id)`). -/
structure PoolPlayer where
  id : String
  name : String
  country : String
  pos : String
  scores : List (String × Int)
  draftedBy : Option String
deriving DecidableEq

/-- A stored team-defense pool entry. -/
structure PoolTeam where
  id : String
  apiId : Nat
  name : String
  country : String
  scores : List (String × Int)
  draftedBy : Option String
deriving DecidableEq

/-- The merge loop of `refreshPlayerPool`: walk the freshly fetched players
carrying the set of already-seen ids (seeded with the stored players' ids);
a fresh player whose id is new is kept and its id added to the set. -/
def mergeNewPlayers (seen : List String) : List PoolPlayer → List PoolPlayer
  | [] => []
  | p :: rest =>
      if p.id ∈ seen then mergeNewPlayers seen rest
      else p :: mergeNewPlayers (p.id :: seen) rest

/-- What `refreshPlayerPool` writes back and returns. -/
structure RefreshResult where
  players : List PoolPlayer
  teams : List PoolTeam
  added : Nat
deriving DecidableEq

/-- Mirror of `refreshPlayerPool(leagueApiId, season)` given the stored row
(players and teams, both `[]` when no row exists) and the freshly fetched
squads: keep every stored player, append fresh players with unseen ids, and
keep the stored teams whenever that list is non-empty
(`existingTeams = stored.length > 0 ? stored : null`,
`teamsToSave = existingTeams || freshTeams`). -/
def refreshPlayerPool (existingPlayers : List PoolPlayer)
    (existingTeams : List PoolTeam) (freshPlayers : List PoolPlayer)
    (freshTeams : List PoolTeam) : RefreshResult :=
  let appended := mergeNewPlayers (existingPlayers.map (·.id)) freshPlayers
  { players := existingPlayers ++ appended,
    teams := if existingTeams.length > 0 then existingTeams else freshTeams,
    added := appended.length }

/-! ## Theorems -/

/-- Every dispatch timestamp in a run is at least the next-allowed timestamp
the run started from. -/
lemma le_of_mem_dispatchTimes :
    ∀ (jobs : List GwJob) (now na : Nat) (p : Bool) (x : Nat),
      x ∈ dispatchTimes (apiFootballQueueRun now na p jobs) → na ≤ x := by
  intro jobs
  induction jobs with
  | nil => intro now na p x hx; cases p <;> simp [apiFootballQueueRun, dispatchTimes] at hx
  | cons j rest ih =>
    intro now na p x hx
    cases p with
    | true =>
      simp only [apiFootballQueueRun, dispatchTimes, List.filterMap_cons] at hx
      exact ih _ _ _ _ hx
    | false =>
      simp only [apiFootballQueueRun, dispatchTimes, List.filterMap_cons] at hx
      rcases List.mem_cons.mp hx with h | h
      · subst h; omega
      · have := ih (now + j.delay + (na - (now + j.delay)) + j.dur)
          (now + j.delay + (na - (now + j.delay)) + API_FOOTBALL_MIN_INTERVAL_MS) (!j.ok) x h
        omega

/-- Consecutive dispatch timestamps in a gateway run are at least the minimum
interval apart. -/
lemma chain_dispatchTimes :
    ∀ (jobs : List GwJob) (now na : Nat) (p : Bool),
      (dispatchTimes (apiFootballQueueRun now na p jobs)).Chain'
        (fun a b => a + API_FOOTBALL_MIN_INTERVAL_MS ≤ b) := by
  intro jobs
  induction jobs with
  | nil => intro now na p; cases p <;> simp [apiFootballQueueRun, dispatchTimes]
  | cons j rest ih =>
    intro now na p
    cases p with
    | true =>
      simpa only [apiFootballQueueRun, dispatchTimes, List.filterMap_cons] using
        ih (now + j.delay) na true
    | false =>
      simp only [apiFootballQueueRun, dispatchTimes, List.filterMap_cons]
      rw [List.chain'_cons']
      constructor
      · intro y hy
        have hmem : y ∈ dispatchTimes
            (apiFootballQueueRun (now + j.delay + (na - (now + j.delay)) + j.dur)
              (now + j.delay + (na - (now + j.delay)) + API_FOOTBALL_MIN_INTERVAL_MS)
              (!j.ok) rest) := List.mem_of_mem_head? hy
        exact le_of_mem_dispatchTimes _ _ _ _ _ hmem
      · exact ih _ _ _

lemma all_reservesSlot :
    ∀ (jobs : List GwJob) (now na : Nat) (p : Bool),
      (apiFootballQueueRun now na p jobs).all reservesSlot = true := by
  intro jobs
  induction jobs with
  | nil => intro now na p; cases p <;> rfl
  | cons j rest ih =>
    intro now na p
    cases p with
    | true =>
      simp only [apiFootballQueueRun, List.all_cons, Bool.and_eq_true]
      exact ⟨rfl, ih _ _ _⟩
    | false =>
      simp only [apiFootballQueueRun, List.all_cons, Bool.and_eq_true]
      refine ⟨?_, ih _ _ _⟩
      simp [reservesSlot]

lemma length_apiFootballQueueRun :
    ∀ (jobs : List GwJob) (now na : Nat) (p : Bool),
      (apiFootballQueueRun now na p jobs).length = jobs.length := by
  intro jobs
  induction jobs with
  | nil => intro now na p; cases p <;> rfl
  | cons j rest ih =>
    intro now na p
    cases p with
    | true => simp only [apiFootballQueueRun, List.length_cons, ih]
    | false => simp only [apiFootballQueueRun, List.length_cons, ih]

/-- C1: calls submitted to the gateway are processed one at a time in
submission order (one trace entry per job), any two consecutive dispatch
timestamps are at least `API_FOOTBALL_MIN_INTERVAL_MS` apart, no call is
dispatched before the next-allowed timestamp the run started from, and every
dispatched call records `start + API_FOOTBALL_MIN_INTERVAL_MS` as the shared
next-allowed timestamp handed to its successor — also when its network
function fails. -/
theorem gateway_min_interval_and_reservation (now na : Nat) (jobs : List GwJob) :
    (dispatchTimes (apiFootballQueueRun now na false jobs)).Chain'
        (fun a b => a + API_FOOTBALL_MIN_INTERVAL_MS ≤ b) ∧
      (dispatchTimes (apiFootballQueueRun now na false jobs)).all
        (fun x => decide (na ≤ x)) = true ∧
      (apiFootballQueueRun now na false jobs).all reservesSlot = true ∧
      (apiFootballQueueRun now na false jobs).length = jobs.length := by
  refine ⟨chain_dispatchTimes jobs now na false, ?_, all_reservesSlot jobs now na false,
    length_apiFootballQueueRun jobs now na false⟩
  rw [List.all_eq_true]
  intro x hx
  simpa using le_of_mem_dispatchTimes jobs now na false x hx

/-- C2: failing input for the recoverability claim.  Two back-to-back calls:
the first is dispatched at time 0 and its network function rejects; the
second call's callback is chained with `.then` onto the now-rejected
`apiFootballQueue`, so it never runs — the second call is never dispatched
(outcome `skipped`) and rejects with the first call's error, contradicting
the claim that a failure is never fatal to later calls. -/
theorem gateway_failure_poisons_queue :
    apiFootballQueueRun 0 0 false [⟨0, 10, false⟩, ⟨0, 10, true⟩] =
      [(.dispatched 0 false, API_FOOTBALL_MIN_INTERVAL_MS),
       (.skipped, API_FOOTBALL_MIN_INTERVAL_MS)] := by
  rfl

/-- C3: classification of provider failures.  An HTTP 200 body with a
non-empty embedded `errors` field raises the structured error with status 429
and `retryAfterSeconds = 60`; a genuine HTTP 429 raises the same; any other
non-2xx HTTP failure raises status 502 with no `retryAfterSeconds`. -/
theorem apiFootball_error_classification (endpoint : String)
    (params : List (String × String)) (body : ApiBody) (s : Nat)
    (hbody : hasUpstreamErrors body.errors = true)
    (hs429 : s ≠ 429) (_hs2xx : ¬(200 ≤ s ∧ s < 300)) :
    apiFootballResult endpoint params (.success body) =
        .error (.api { status := 429, endpoint := endpoint, params := params,
                       upstreamStatus := some 200, upstreamErrors := some body.errors,
                       retryAfterSeconds := some 60 }) ∧
      apiFootballResult endpoint params (.httpFailure 429 body) =
        .error (.api { status := 429, endpoint := endpoint, params := params,
                       upstreamStatus := some 429, upstreamErrors := some body.errors,
                       retryAfterSeconds := some 60 }) ∧
      apiFootballResult endpoint params (.httpFailure s body) =
        .error (.api { status := 502, endpoint := endpoint, params := params,
                       upstreamStatus := some s, upstreamErrors := some body.errors,
                       retryAfterSeconds := none }) := by
  refine ⟨?_, ?_, ?_⟩
  · simp [apiFootballResult, hbody]
  · simp [apiFootballResult]
  · simp [apiFootballResult, hs429]

/-- Witness for C3 at concrete inputs: a body whose `errors` array has one
element, together with an HTTP 500 failure. -/
theorem apiFootball_error_classification_witness :
    hasUpstreamErrors (ApiBody.mk (.arr 1) 0).errors = true ∧
      apiFootballResult "/fixtures" [("league", "2")] (.success (ApiBody.mk (.arr 1) 0)) =
        .error (.api { status := 429, endpoint := "/fixtures", params := [("league", "2")],
                       upstreamStatus := some 200, upstreamErrors := some (.arr 1),
                       retryAfterSeconds := some 60 }) ∧
      apiFootballResult "/fixtures" [("league", "2")]
          (.httpFailure 500 (ApiBody.mk (.arr 1) 0)) =
        .error (.api { status := 502, endpoint := "/fixtures", params := [("league", "2")],
                       upstreamStatus := some 500, upstreamErrors := some (.arr 1),
                       retryAfterSeconds := none }) := by
  refine ⟨by decide, ?_, ?_⟩
  · exact (apiFootball_error_classification "/fixtures" [("league", "2")]
      (ApiBody.mk (.arr 1) 0) 500 (by decide) (by decide) (by decide)).1
  · exact (apiFootball_error_classification "/fixtures" [("league", "2")]
      (ApiBody.mk (.arr 1) 0) 500 (by decide) (by decide) (by decide)).2.2

/-- C4 counterexample: a transport-level axios failure (no `e.response`) is
rethrown raw by the final `throw e`, so a raw, unstructured error escapes to
the caller of `apiFootball`. -/
theorem apiFootball_raw_error_escapes :
    apiFootballResult "/fixtures" [("league", "2")] (.transportFailure "ECONNREFUSED") =
        .error (.raw "ECONNREFUSED") ∧
      RaisedError.isApiFootballError (.raw "ECONNREFUSED") = false := by
  exact ⟨rfl, rfl⟩

/-- C4 amended: every failure raised from a received provider response — a
fulfilled response with embedded errors, or an HTTP failure carrying
`e.response` — is the structured `ApiFootballError`, carrying the call's
endpoint and params, an upstream status, the upstream errors, and (when rate
limited) `retryAfterSeconds`; only a rejection with no response object
escapes raw. -/
theorem apiFootball_structured_errors (endpoint : String)
    (params : List (String × String)) (r : HttpResult) (err : RaisedError)
    (hr : ∀ msg, r ≠ .transportFailure msg)
    (herr : apiFootballResult endpoint params r = .error err) :
    ∃ e : ApiFootballError, err = .api e ∧ e.endpoint = endpoint ∧ e.params = params ∧
      e.upstreamStatus.isSome = true ∧ e.upstreamErrors.isSome = true := by
  cases r with
  | success body =>
    by_cases hb : hasUpstreamErrors body.errors = true
    · simp only [apiFootballResult, hb, if_true, Except.error.injEq] at herr
      exact ⟨_, herr.symm, rfl, rfl, rfl, rfl⟩
    · simp only [apiFootballResult, Bool.not_eq_true] at hb herr
      rw [hb] at herr
      simp at herr
  | httpFailure s body =>
    simp only [apiFootballResult, Except.error.injEq] at herr
    exact ⟨_, herr.symm, rfl, rfl, rfl, rfl⟩
  | transportFailure msg => exact absurd rfl (hr msg)

/-- Witness for the amended C4 at a concrete input: an HTTP 503 failure
raises a structured error. -/
theorem apiFootball_structured_errors_witness :
    RaisedError.isApiFootballError
        (.api { status := 502, endpoint := "/teams", params := [],
                upstreamStatus := some 503, upstreamErrors := some .absent,
                retryAfterSeconds := none }) = true := by
  obtain ⟨e, he, -, -, -, -⟩ := apiFootball_structured_errors "/teams" []
    (.httpFailure 503 (ApiBody.mk .absent 0))
    (.api { status := 502, endpoint := "/teams", params := [],
            upstreamStatus := some 503, upstreamErrors := some .absent,
            retryAfterSeconds := none })
    (fun msg => by simp) rfl
  rw [he]
  rfl

/-- With no duplicate keys, `find?` on the key of a member returns exactly
that member. -/
lemma find?_eq_of_nodup_keys :
    ∀ (l : List (String × String)), (l.map Prod.fst).Nodup →
      ∀ k v, (k, v) ∈ l → (l.find? fun e => e.1 == k) = some (k, v) := by
  intro l
  induction l with
  | nil => intro _ k v h; simp at h
  | cons a rest ih =>
    intro hnd k v hmem
    simp only [List.map_cons, List.nodup_cons] at hnd
    rcases List.mem_cons.mp hmem with h | h
    · rw [← h] at hnd ⊢
      rw [List.find?_cons_of_pos]
      simp
    · have hak : a.1 ≠ k := by
        intro hEq
        exact hnd.1 (hEq ▸ List.mem_map_of_mem Prod.fst h)
      rw [List.find?_cons_of_neg]
      · exact ih hnd.2 k v h
      · simp [hak]

/-- C7: the cache key construction is order-independent — two parameter
objects holding the same key-to-value mapping (as lists of entries that are
permutations of each other, with no duplicate keys) serialize to the
identical string. -/
theorem stableStringify_order_independent (l1 l2 : List (String × String))
    (hperm : l1.Perm l2) (hnodup : (l1.map Prod.fst).Nodup) :
    stableStringify l1 = stableStringify l2 := by
  have hk : (l1.map Prod.fst).Perm (l2.map Prod.fst) := hperm.map _
  have hnodup2 : (l2.map Prod.fst).Nodup := hk.nodup_iff.mp hnodup
  have hsort : (l1.map Prod.fst).insertionSort (fun a b => a ≤ b) =
      (l2.map Prod.fst).insertionSort (fun a b => a ≤ b) :=
    List.eq_of_perm_of_sorted
      (((List.perm_insertionSort _ _).trans hk).trans (List.perm_insertionSort _ _).symm)
      (List.sorted_insertionSort _ _) (List.sorted_insertionSort _ _)
  unfold stableStringify
  rw [hsort]
  congr 1
  apply List.map_congr_left
  intro k hkmem
  have hk2 : k ∈ l2.map Prod.fst := (List.perm_insertionSort _ _).mem_iff.mp hkmem
  obtain ⟨e, he2, hek⟩ := List.mem_map.mp hk2
  obtain ⟨kk, v⟩ := e
  subst hek
  have he1 : (kk, v) ∈ l1 := hperm.mem_iff.mpr he2
  have hget1 : jsGet l1 kk = v := by
    unfold jsGet
    rw [find?_eq_of_nodup_keys l1 hnodup kk v he1]
    rfl
  have hget2 : jsGet l2 kk = v := by
    unfold jsGet
    rw [find?_eq_of_nodup_keys l2 hnodup2 kk v he2]
    rfl
  rw [hget1, hget2]

/-- Witness for C7 at concrete inputs: the same two parameters inserted in
the two possible orders. -/
theorem stableStringify_order_independent_witness :
    ([("team", "40"), ("league", "2")] : List (String × String)).Perm
        [("league", "2"), ("team", "40")] ∧
      (([("team", "40"), ("league", "2")] : List (String × String)).map Prod.fst).Nodup ∧
      stableStringify [("team", "40"), ("league", "2")] =
        stableStringify [("league", "2"), ("team", "40")] := by
  refine ⟨List.Perm.swap _ _ _, by decide, ?_⟩
  exact stableStringify_order_independent _ _ (List.Perm.swap _ _ _) (by decide)

/-- Reading a one-entry cache at its own key: a miss that deletes the entry
when it has expired, a hit otherwise. -/
lemma getApiFootballCached_singleton (now e : Nat) (k : String) (d : ApiBody) :
    getApiFootballCached now [(k, e, d)] k =
      if now ≥ e then (none, []) else (some d, [(k, e, d)]) := by
  unfold getApiFootballCached cacheDelete
  simp

/-- C5: with the squads entry for `params` stored to expire at `exp`, a call
strictly before `exp` returns the cached payload, leaves the cache unchanged
and makes no upstream call; a call at or after `exp` always goes upstream
(for every outcome of the request), and when the fresh fetch succeeds with a
body free of embedded errors, that body is returned and replaces the entry
with expiry `t + API_FOOTBALL_SQUADS_TTL_MS`. -/
theorem squads_cache_ttl (params : List (String × String)) (d0 body : ApiBody)
    (exp t : Nat) (http : HttpResult)
    (hok : hasUpstreamErrors body.errors = false) :
    (t < exp →
        (apiFootballSquads t [(squadsCacheKey params, exp, d0)] params http).result = .ok d0 ∧
          (apiFootballSquads t [(squadsCacheKey params, exp, d0)] params http).cache =
            [(squadsCacheKey params, exp, d0)] ∧
          (apiFootballSquads t [(squadsCacheKey params, exp, d0)] params http).upstreamCalled
            = false) ∧
      (exp ≤ t →
        (apiFootballSquads t [(squadsCacheKey params, exp, d0)] params http).upstreamCalled
            = true ∧
          (apiFootballSquads t [(squadsCacheKey params, exp, d0)] params
              (.success body)).result = .ok body ∧
          (apiFootballSquads t [(squadsCacheKey params, exp, d0)] params
              (.success body)).cache =
            [(squadsCacheKey params, t + API_FOOTBALL_SQUADS_TTL_MS, body)]) := by
  constructor
  · intro hlt
    have hmiss : ¬(t ≥ exp) := by omega
    unfold apiFootballSquads
    rw [getApiFootballCached_singleton, if_neg hmiss]
    exact ⟨rfl, rfl, rfl⟩
  · intro hge
    have hsucc : apiFootballResult "/players/squads" params (.success body) = .ok body := by
      simp [apiFootballResult, hok]
    unfold apiFootballSquads
    rw [getApiFootballCached_singleton, if_pos hge]
    refine ⟨?_, ?_, ?_⟩
    · cases hres : apiFootballResult "/players/squads" params http with
      | ok data => rfl
      | error e => rfl
    · rw [hsucc]
    · rw [hsucc]
      unfold setApiFootballCached cacheSet
      rfl

/-- Witness for C5 at concrete inputs: an entry expiring at 100, one call at
time 50 (hit, no upstream request) and one at time 100 (refetch stores the
fresh body). -/
theorem squads_cache_ttl_witness :
    hasUpstreamErrors (ApiBody.mk .absent 2).errors = false ∧
      (apiFootballSquads 50 [(squadsCacheKey [("team", "40")], 100, ApiBody.mk .absent 1)]
          [("team", "40")] (.transportFailure "x")).upstreamCalled = false ∧
      (apiFootballSquads 100 [(squadsCacheKey [("team", "40")], 100, ApiBody.mk .absent 1)]
          [("team", "40")] (.success (ApiBody.mk .absent 2))).result =
        .ok (ApiBody.mk .absent 2) := by
  refine ⟨by decide, ?_, ?_⟩
  · exact ((squads_cache_ttl [("team", "40")] (ApiBody.mk .absent 1) (ApiBody.mk .absent 2)
      100 50 (.transportFailure "x") (by decide)).1 (by omega)).2.2
  · exact ((squads_cache_ttl [("team", "40")] (ApiBody.mk .absent 1) (ApiBody.mk .absent 2)
      100 100 (.success (ApiBody.mk .absent 2)) (by decide)).2 (by omega)).2.1

/-- C6 counterexample: an expired entry for the key is lazily deleted by the
cache read, so after a call whose upstream fetch fails the cache is empty and
differs from its pre-call state — the cache state after a failed call does
not always equal its state before the call. -/
theorem squads_failed_call_changes_cache :
    (apiFootballSquads 5 [(squadsCacheKey [("team", "40")], 5, ApiBody.mk .absent 0)]
        [("team", "40")] (.transportFailure "timeout")).cache = [] ∧
      ([(squadsCacheKey [("team", "40")], 5, ApiBody.mk .absent 0)] : Cache) ≠ [] := by
  constructor
  · rfl
  · simp

/-- The cache state the squads read leaves behind never gains entries. -/
lemma getApiFootballCached_snd_sublist (now : Nat) (c : Cache) (k : String) :
    (getApiFootballCached now c k).2.Sublist c := by
  unfold getApiFootballCached
  cases hf : c.find? (fun e => e.1 == k) with
  | none => exact List.Sublist.refl c
  | some entry =>
    obtain ⟨k0, e0, d0⟩ := entry
    by_cases hge : now ≥ e0
    · simp only [hge, if_pos]
      exact List.filter_sublist c
    · simp only [hge, if_neg, if_false]
      exact List.Sublist.refl c

/-- C6 amended: a squads call whose fetch fails stores nothing — the cache
afterwards is a sublist of the cache before the call (no entry added or
updated; at most the already-expired entry for the key was removed by the
read), so a failure is never cached and silently reused. -/
theorem squads_failure_never_cached (now : Nat) (c : Cache)
    (params : List (String × String)) (http : HttpResult) (err : RaisedError)
    (herr : (apiFootballSquads now c params http).result = .error err) :
    (apiFootballSquads now c params http).cache.Sublist c := by
  unfold apiFootballSquads at herr ⊢
  rcases hg : getApiFootballCached now c (squadsCacheKey params) with ⟨o, c2⟩
  have hsub : c2.Sublist c := by
    have h0 := getApiFootballCached_snd_sublist now c (squadsCacheKey params)
    rw [hg] at h0
    exact h0
  rw [hg] at herr
  cases o with
  | some d => simp at herr
  | none =>
    cases hres : apiFootballResult "/players/squads" params http with
    | ok data => rw [hres] at herr; simp at herr
    | error e => exact hsub

/-- Witness for the amended C6 at a concrete input: a transport failure with
an expired entry present. -/
theorem squads_failure_never_cached_witness :
    (apiFootballSquads 5 [(squadsCacheKey [("team", "40")], 5, ApiBody.mk .absent 0)]
        [("team", "40")] (.transportFailure "timeout")).result =
        .error (.raw "timeout") ∧
      (apiFootballSquads 5 [(squadsCacheKey [("team", "40")], 5, ApiBody.mk .absent 0)]
          [("team", "40")] (.transportFailure "timeout")).cache.Sublist
        [(squadsCacheKey [("team", "40")], 5, ApiBody.mk .absent 0)] := by
  refine ⟨rfl, ?_⟩
  exact squads_failure_never_cached 5 _ [("team", "40")] (.transportFailure "timeout")
    (.raw "timeout") rfl

/-- C8: the poller decision table — a 1H fixture is processed exactly when
`elapsed ≥ 1` (elapsed 0 skips), a 2H fixture exactly when `elapsed ≥ 47`
(elapsed 46 skips), an FT fixture is processed as final with `finalized` set
to true by the tick, a fixture whose `finalized` flag is true is skipped
unconditionally, and a tick never unsets `finalized`. -/
theorem poller_state_machine :
    (∀ e : Nat, (pollDecision ⟨.firstHalf, e, false⟩ = .process ↔ 1 ≤ e)) ∧
      pollDecision ⟨.firstHalf, 0, false⟩ = .skip ∧
      (∀ e : Nat, (pollDecision ⟨.secondHalf, e, false⟩ = .process ↔ 47 ≤ e)) ∧
      pollDecision ⟨.secondHalf, 46, false⟩ = .skip ∧
      (∀ e : Nat, pollTick ⟨.ft, e, false⟩ = (.processFinal, ⟨.ft, e, true⟩)) ∧
      (∀ (s : FixtureStatus) (e : Nat), pollDecision ⟨s, e, true⟩ = .skip) ∧
      (∀ (s : FixtureStatus) (e : Nat), (pollTick ⟨s, e, true⟩).2.finalized = true) := by
  refine ⟨?_, by decide, ?_, by decide, ?_, ?_, ?_⟩
  · intro e
    by_cases h : 1 ≤ e <;> simp [pollDecision, h]
  · intro e
    by_cases h : 47 ≤ e <;> simp [pollDecision, h]
  · intro e
    rfl
  · intro s e
    rfl
  · intro s e
    rfl

/-- C9: for a fixture decided on penalties, a side that conceded zero goals
in regulation plus extra time keeps the `+2` "Clean Sheet" line even though
it lost the shootout, and as shootout loser it gets no `+1` "Win" line; in
particular a 0-0 match lost on penalties by the home side scores the home
defense exactly `[+2 Clean Sheet]` and the away defense
`[+1 Win, +2 Clean Sheet]`. -/
theorem defense_clean_sheet_on_shootout_loss (m : FixtureOutcome) (r : Nat) (s : Side)
    (_hpens : m.decidedOnPens = true) (hcs : goalsAgainst m s = 0)
    (hlevel : goalsFor m s = goalsAgainst m s) (hlost : pensWinner m ≠ s) :
    (⟨2, "Clean Sheet"⟩ : BreakdownLine) ∈ teamDefenseBreakdown m r s ∧
      (⟨1, "Win"⟩ : BreakdownLine) ∉ teamDefenseBreakdown m r s ∧
      teamDefenseBreakdown ⟨0, 0, true, false⟩ 0 .home = [⟨2, "Clean Sheet"⟩] ∧
      teamDefenseBreakdown ⟨0, 0, true, false⟩ 0 .away =
        [⟨1, "Win"⟩, ⟨2, "Clean Sheet"⟩] := by
  have hwon : wonFixture m s = false := by
    unfold wonFixture
    rw [hlevel]
    simp [hlost]
  refine ⟨?_, ?_, by decide, by decide⟩
  · unfold teamDefenseBreakdown
    rw [hcs]
    simp
  · unfold teamDefenseBreakdown
    rw [hwon, hcs]
    simp only [Bool.false_eq_true, if_false, if_pos rfl, List.nil_append]
    intro hmem
    rcases List.mem_append.mp hmem with h | h
    · rcases List.mem_singleton.mp h with h1
      exact absurd (congrArg BreakdownLine.points h1) (by decide)
    · by_cases hr : r > 0
      · rw [if_pos hr] at h
        rcases List.mem_singleton.mp h with h1
        have : (1 : Int) = -(r : Int) := congrArg BreakdownLine.points h1
        omega
      · rw [if_neg hr] at h
        simp at h

/-- Witness for C9 at the concrete 0-0 shootout scenario (home side loses the
shootout). -/
theorem defense_clean_sheet_on_shootout_loss_witness :
    teamDefenseBreakdown ⟨0, 0, true, false⟩ 0 .home = [⟨2, "Clean Sheet"⟩] ∧
      teamDefenseBreakdown ⟨0, 0, true, false⟩ 0 .away =
        [⟨1, "Win"⟩, ⟨2, "Clean Sheet"⟩] := by
  refine ⟨?_, ?_⟩
  · exact (defense_clean_sheet_on_shootout_loss ⟨0, 0, true, false⟩ 0 .home rfl rfl rfl
      (by decide)).2.2.1
  · exact (defense_clean_sheet_on_shootout_loss ⟨0, 0, true, false⟩ 0 .home rfl rfl rfl
      (by decide)).2.2.2

/-- A player kept by the refresh merge loop comes from the fresh list and its
id was not among the already-seen ids. -/
lemma mem_mergeNewPlayers :
    ∀ (fresh : List PoolPlayer) (seen : List String) (p : PoolPlayer),
      p ∈ mergeNewPlayers seen fresh → p ∈ fresh ∧ p.id ∉ seen := by
  intro fresh
  induction fresh with
  | nil => intro seen p h; simp [mergeNewPlayers] at h
  | cons q rest ih =>
    intro seen p h
    by_cases hq : q.id ∈ seen
    · rw [mergeNewPlayers, if_pos hq] at h
      have hrec := ih seen p h
      exact ⟨List.mem_cons_of_mem _ hrec.1, hrec.2⟩
    · rw [mergeNewPlayers, if_neg hq] at h
      rcases List.mem_cons.mp h with h1 | h1
      · subst h1
        exact ⟨List.mem_cons_self _ _, hq⟩
      · have hrec := ih _ p h1
        exact ⟨List.mem_cons_of_mem _ hrec.1,
          fun hmem => hrec.2 (List.mem_cons_of_mem _ hmem)⟩

/-- C10: `refreshPlayerPool` is append-only — the stored players survive
unchanged, in order, as the prefix of the written pool; every appended entry
is a freshly fetched player whose id was not in the stored pool; and the
stored teams list is written back unchanged whenever it is non-empty, the
freshly fetched teams being saved only when it is empty. -/
theorem refreshPlayerPool_append_only (ep : List PoolPlayer) (et : List PoolTeam)
    (fp : List PoolPlayer) (ft : List PoolTeam) :
    (refreshPlayerPool ep et fp ft).players.take ep.length = ep ∧
      (refreshPlayerPool ep et fp ft).players.drop ep.length =
        mergeNewPlayers (ep.map (·.id)) fp ∧
      (∀ p ∈ (refreshPlayerPool ep et fp ft).players.drop ep.length,
        p ∈ fp ∧ p.id ∉ ep.map (·.id)) ∧
      (et ≠ [] → (refreshPlayerPool ep et fp ft).teams = et) ∧
      (et = [] → (refreshPlayerPool ep et fp ft).teams = ft) := by
  unfold refreshPlayerPool
  refine ⟨List.take_left ep _, List.drop_left ep _, ?_, ?_, ?_⟩
  · intro p hp
    rw [List.drop_left ep _] at hp
    exact mem_mergeNewPlayers fp (ep.map (·.id)) p hp
  · intro hne
    have : et.length > 0 := List.length_pos.mpr hne
    simp [this]
  · intro heq
    subst heq
    simp

/-- Witness for C10 at concrete inputs: one stored player, one stored team,
two fresh players of which one id is already stored. -/
theorem refreshPlayerPool_append_only_witness :
    (refreshPlayerPool [⟨"1", "A", "AA", "FW", [], none⟩]
          [⟨"team-40", 40, "L Defense", "LIV", [], none⟩]
          [⟨"1", "A2", "BB", "MF", [], none⟩, ⟨"2", "B", "CC", "DF", [], none⟩]
          [⟨"team-42", 42, "A Defense", "ARS", [], none⟩]).players.take 1 =
        [⟨"1", "A", "AA", "FW", [], none⟩] ∧
      (refreshPlayerPool [⟨"1", "A", "AA", "FW", [], none⟩]
          [⟨"team-40", 40, "L Defense", "LIV", [], none⟩]
          [⟨"1", "A2", "BB", "MF", [], none⟩, ⟨"2", "B", "CC", "DF", [], none⟩]
          [⟨"team-42", 42, "A Defense", "ARS", [], none⟩]).teams =
        [⟨"team-40", 40, "L Defense", "LIV", [], none⟩] := by
  constructor
  · exact (refreshPlayerPool_append_only [⟨"1", "A", "AA", "FW", [], none⟩]
      [⟨"team-40", 40, "L Defense", "LIV", [], none⟩]
      [⟨"1", "A2", "BB", "MF", [], none⟩, ⟨"2", "B", "CC", "DF", [], none⟩]
      [⟨"team-42", 42, "A Defense", "ARS", [], none⟩]).1
  · exact (refreshPlayerPool_append_only [⟨"1", "A", "AA", "FW", [], none⟩]
      [⟨"team-40", 40, "L Defense", "LIV", [], none⟩]
      [⟨"1", "A2", "BB", "MF", [], none⟩, ⟨"2", "B", "CC", "DF", [], none⟩]
      [⟨"team-42", 42, "A Defense", "ARS", [], none⟩]).2.2.2.1 (by simp)

end FantasySoccer
